import Mathlib

/-!
Shallow embedding of the quiz-solving agent (src/agent.py and src/tools/) and
verification of the specified properties of its control loop, history
compaction, routing, rate limiting, identity injection and base64
placeholder mechanism.

Conventions of the embedding:
* Python strings are Lean `String`; character-level operations work on `.data`.
* Python floats used as timestamps are modelled as `Int` "time units".
* Python dicts with string keys are association lists in insertion order.
* Effectful calls (LLM backend, filesystem, speech recognition) are passed in
  as explicit oracle arguments, so every function is total and executable.
-/

namespace Quiz

/-- Python `str.upper()` restricted to the ASCII range (sufficient here). -/
def pyUpper (s : String) : String := String.mk (s.data.map Char.toUpper)

/-- Contiguous-sublist test on character lists; `needleIn n h` is true iff
`n` occurs contiguously inside `h`. -/
def needleIn : List Char → List Char → Bool
  | needle, [] => needle.isEmpty
  | needle, c :: rest => needle.isPrefixOf (c :: rest) || needleIn needle rest

/-- Python `needle in hay` on strings (substring containment). -/
def strContains (hay needle : String) : Bool := needleIn needle.data hay.data

/-- Python `s.startswith(pre)`. -/
def pyStartsWith (s pre : String) : Bool := pre.data.isPrefixOf s.data

/-- A structured tool invocation as carried on a LangChain `AIMessage`
(`tool_call["id"]`, `tool_call["name"]`, `tool_call["args"]`). -/
structure ToolCall where
  id : String
  name : String
  args : List (String × String)
deriving Repr, DecidableEq

/-- The message variants of the Conversation State: `SystemMessage`,
`HumanMessage`, `AIMessage` (with its tool calls and the backend-reported
finish status, carried in the message metadata at runtime), `ToolMessage`. -/
inductive Msg where
  | system (content : String)
  | human (content : String)
  | ai (content : String) (toolCalls : List ToolCall) (finishMalformed : Bool)
  | tool (content : String) (toolCallId : String)
deriving Repr, DecidableEq

/-- Python `isinstance(m, SystemMessage)`. -/
def isSystemMsg : Msg → Bool
  | Msg.system _ => true
  | _ => false

/-- Python `isinstance(m, ToolMessage)`. -/
def isToolMsg : Msg → Bool
  | Msg.tool _ _ => true
  | _ => false

/-- Python `str(m.content)`. -/
def contentOf : Msg → String
  | Msg.system c => c
  | Msg.human c => c
  | Msg.ai c _ _ => c
  | Msg.tool c _ => c

/-- Whether the message is a model reply containing a tool call with the
given call id (i.e. the reply that requested the tool result). -/
def requestedIn (callId : String) : Msg → Bool
  | Msg.ai _ calls _ => calls.any (fun tc => tc.id == callId)
  | _ => false

/-- Helper for `causalInvariant`: checks each message against its
predecessor. -/
def noOrphanFrom : Option Msg → List Msg → Bool
  | _, [] => true
  | prev, m :: rest =>
    (match m with
     | Msg.tool _ cid =>
       (match prev with
        | some p => requestedIn cid p
        | none => false)
     | _ => true)
    && noOrphanFrom (some m) rest

/-- The causal invariant of the spec: every tool-result message is
immediately preceded by the model reply that requested it. -/
def causalInvariant (msgs : List Msg) : Bool := noOrphanFrom none msgs

/-- The token estimator of `trim_messages` (src/agent.py line 130):
`sum(len(str(m.content)) for m in messages) // 4`. -/
def estimatedTokens (messages : List Msg) : Nat :=
  (messages.map (fun m => (contentOf m).length)).sum / 4

/-- History compaction, `trim_messages` (src/agent.py lines 121-143).
`keep_count = int(len(other_msgs) * 0.6)` is `3 * n / 5` in exact
arithmetic, and Python `other_msgs[-keep_count:]` returns the whole list
when `keep_count = 0`. -/
def trimMessages (messages : List Msg) (maxTokens : Nat) : List Msg :=
  if messages.isEmpty then messages
  else
    let systemMsgs := messages.filter (fun m => isSystemMsg m)
    let otherMsgs := messages.filter (fun m => !isSystemMsg m)
    if estimatedTokens messages ≤ maxTokens then messages
    else
      let keepCount := 3 * otherMsgs.length / 5
      let trimmed :=
        if keepCount = 0 then otherMsgs
        else otherMsgs.drop (otherMsgs.length - keepCount)
      systemMsgs ++ trimmed

/-- The four successor states of the routing decision in `route`
(src/agent.py lines 232-257): the graph nodes "tools", "handle_malformed",
"agent" and the terminal END. -/
inductive Route where
  | tools
  | handleMalformed
  | agent
  | done
deriving Repr, DecidableEq

/-- A tool call failing `if not tool_call.get("name") or not
tool_call.get("args")` (src/agent.py line 243). -/
def badToolCall (tc : ToolCall) : Bool := tc.name == "" || tc.args.isEmpty

/-- The end-signal test of `route` (src/agent.py lines 251-252):
`content = str(last_message.content).upper()` followed by three substring
checks. -/
def containsEndSignal (content : String) : Bool :=
  strContains (pyUpper content) "END" || strContains (pyUpper content) "COMPLETE"
    || strContains (pyUpper content) "FINISHED"

/-- The routing decision `route` (src/agent.py lines 232-257), evaluated on
the last message of the conversation. -/
def route (last : Msg) : Route :=
  match last with
  | Msg.ai content calls _finishMalformed =>
    if !calls.isEmpty then
      if calls.any badToolCall then Route.handleMalformed else Route.tools
    else if containsEndSignal content then Route.done
    else Route.agent
  | _ => Route.agent

/-- The transition table of spec section 4.3 without its rule 1 (the
malformed finish-status check), stated from the spec's words: well-formed
calls go to ACT, a call missing a name or arguments goes to REPAIR, a
tool-free reply with a completion keyword goes to DONE, anything else
loops back to REASON. -/
def routeSpecNoFinishCheck (last : Msg) : Route :=
  match last with
  | Msg.ai content calls _finishStatus =>
    if !calls.isEmpty && calls.all (fun tc => !(tc.name == "") && !tc.args.isEmpty) then
      Route.tools
    else if calls.any badToolCall then Route.handleMalformed
    else if containsEndSignal content then Route.done
    else Route.agent
  | _ => Route.agent

/-- Modelled from the spec: the Shared Timing Store (`url_time` in
`shared`, a module not under src/): a process-wide mapping from task URL to
start timestamp together with the "current_url" pointer, both written by
`run_agent` (src/agent.py lines 295-296). -/
structure TimingStore where
  currentUrl : Option String
  entries : List (String × Int)
deriving Repr, DecidableEq

/-- Dictionary lookup `url_time[u]` on the timing store. -/
def TimingStore.startOf (ts : TimingStore) (u : String) : Option Int :=
  (ts.entries.find? (fun kv => kv.1 == u)).map Prod.snd

/-- The fixed reply returned by the timeout branch of `agent_node`
(src/agent.py line 169). -/
def timeoutMessage : Msg := Msg.ai "TIMEOUT - submitting fallback answer" [] false

/-- The model-invocation step `agent_node` (src/agent.py lines 145-206),
reduced to its returned message delta. `invoke` is the black-box language
model backend (the primary/fallback pair behaves as one total function
here); `now` is `time.time()`. The timeout branch (lines 156-172) returns
the fixed `timeoutMessage` without consulting `invoke`; otherwise the
backend is invoked on the trimmed history. -/
def agentNode (invoke : List Msg → Msg) (ts : TimingStore) (now : Int)
    (messages : List Msg) : List Msg :=
  let timedOut :=
    match ts.currentUrl with
    | some u =>
      (u != "") &&
        (match ts.startOf u with
         | some t0 => decide (now - t0 > 180)
         | none => false)
    | none => false
  if timedOut then [timeoutMessage]
  else [invoke (trimMessages messages 60000)]

/-- A backend oracle that answers every conversation with the same reply;
used to observe whether `agent_node` consults the backend at all. -/
def constBackend : List Msg → Msg := fun _ => Msg.ai "BACKEND_REPLY" [] false

/-- The sliding-window filter of `check_rate_limit` (src/tools/send_request.py
line 28): keep timestamps with `now - t < TIME_WINDOW` (60). -/
def filterWindow (times : List Int) (now : Int) : List Int :=
  times.filter (fun t => decide (now - t < 60))

/-- `check_rate_limit` (src/tools/send_request.py lines 24-37). Input: the
recorded request times and the current clock `now`; output: the new
recorded list and the time at which the caller's request is actually
dispatched (after the `time.sleep(wait_time)` when the window is full).
Note the code clears the list after sleeping and then appends the
pre-sleep `now`. -/
def checkRateLimit (times : List Int) (now : Int) : List Int × Int :=
  let filtered := filterWindow times now
  if 4 ≤ filtered.length then
    let wait := 60 - (now - filtered.headD 0)
    if 0 < wait then ([now], now + wait)
    else (filtered ++ [now], now)
  else (filtered ++ [now], now)

/-- Runs the rate limiter over a sequence of call times, returning the
dispatch time of each submission attempt. -/
def runLimiter (times : List Int) : List Int → List Int
  | [] => []
  | now :: rest =>
    let step := checkRateLimit times now
    step.2 :: runLimiter step.1 rest

/-- A call schedule is sequentially realizable when each call occurs no
earlier than the completion (dispatch) of the previous one: the tool is
invoked from a single thread. -/
def seqValid (times : List Int) (prevDone : Int) : List Int → Bool
  | [] => true
  | now :: rest =>
    decide (prevDone ≤ now) &&
      (let step := checkRateLimit times now
       seqValid step.1 step.2 rest)

/-- Number of dispatches falling in the sliding window `[lo, lo + 60)`. -/
def windowCount (dispatches : List Int) (lo : Int) : Nat :=
  (dispatches.filter (fun d => decide (lo ≤ d) && decide (d < lo + 60))).length

/-- The standard base64 alphabet used by Python's `base64.b64encode`. -/
def b64Alphabet : List Char :=
  "ABCDEFGHIJKLMNOPQRSTUVWXYZabcdefghijklmnopqrstuvwxyz0123456789+/".data

/-- Character for a 6-bit group. -/
def b64Char (n : Nat) : Char := b64Alphabet.getD n 'A'

/-- Index of a base64 character in the alphabet. -/
def b64val (c : Char) : Nat := b64Alphabet.indexOf c

/-- RFC 4648 base64 of a byte list (the semantics of
`base64.b64encode(image_data)` in src/tools/base64.py line 205), with `=`
padding. Bytes are `Nat` values below 256. -/
def b64encodeBytes : List Nat → List Char
  | [] => []
  | [a] => [b64Char (a / 4), b64Char (a % 4 * 16), '=', '=']
  | [a, b] => [b64Char (a / 4), b64Char (a % 4 * 16 + b / 16), b64Char (b % 16 * 4), '=']
  | a :: b :: c :: rest =>
    b64Char (a / 4) :: b64Char (a % 4 * 16 + b / 16) :: b64Char (b % 16 * 4 + c / 64)
      :: b64Char (c % 64) :: b64encodeBytes rest

/-- Base64 of a byte list as a string. -/
def b64encode (bs : List Nat) : String := String.mk (b64encodeBytes bs)

/-- Base64 decoding, the mathematical inverse used to state that the
encoding stored by the tool is byte-for-byte exact. -/
def b64decodeAux : List Char → List Nat
  | c1 :: c2 :: c3 :: c4 :: rest =>
    let v1 := b64val c1
    let v2 := b64val c2
    if c3 = '=' then [v1 * 4 + v2 / 16]
    else
      let v3 := b64val c3
      if c4 = '=' then [v1 * 4 + v2 / 16, v2 % 16 * 16 + v3 / 4]
      else
        (v1 * 4 + v2 / 16) :: (v2 % 16 * 16 + v3 / 4) :: (v3 % 4 * 64 + b64val c4)
          :: b64decodeAux rest
  | _ => []

/-- Python `s.replace(pat, rep)` for a non-empty pattern: replaces every
non-overlapping occurrence, scanning left to right. The first argument is
fuel (the length of the text), making the recursion structural. -/
def replaceAllAux (pat rep : List Char) : Nat → List Char → List Char
  | 0, _ => []
  | _, [] => []
  | fuel + 1, c :: rest =>
    if !pat.isEmpty && pat.isPrefixOf (c :: rest) then
      rep ++ replaceAllAux pat rep fuel ((c :: rest).drop pat.length)
    else
      c :: replaceAllAux pat rep fuel rest

/-- Python `s.replace(pat, rep)` (used with non-empty `pat` only). -/
def pyReplace (s pat rep : String) : String :=
  String.mk (replaceAllAux pat.data rep.data s.data.length s.data)

/-- Modelled from the spec: the Base64 Placeholder Store (`BASE64_STORE` in
`shared`, a module not under src/): a mapping from handle key to base64
payload, in insertion order. -/
def Base64Store : Type := List (String × String)

/-- The placeholder-substitution loop of `post_request`
(src/tools/send_request.py lines 65-73): for each store entry whose
`BASE64_KEY:<key>` token occurs in the serialized payload, replace every
occurrence with the stored base64 value. -/
def substitutePlaceholders (store : List (String × String)) (s : String) : String :=
  store.foldl
    (fun acc kv =>
      if strContains acc ("BASE64_KEY:" ++ kv.1) then
        pyReplace acc ("BASE64_KEY:" ++ kv.1) kv.2
      else acc)
    s

/-- The result dictionary of `encode_image_to_base64`
(src/tools/base64.py lines 222-226). -/
structure EncodeResult where
  placeholder : String
  uuid : String
  success : Bool
deriving Repr, DecidableEq

/-- `encode_image_to_base64` (src/tools/base64.py lines 29-58), success
path: the file's bytes are `imageBytes` and `uuid.uuid4()` returned the
fresh key `freshKey`. Returns the updated store and the result dict. -/
def encodeImageToBase64 (store : List (String × String)) (imageBytes : List Nat)
    (freshKey : String) : List (String × String) × EncodeResult :=
  let b64 := b64encode imageBytes
  (store ++ [(freshKey, b64)],
   { placeholder := "BASE64_KEY:" ++ freshKey, uuid := freshKey, success := true })

/-- Python values appearing in tool payloads and results. -/
inductive PyVal where
  | str (s : String)
  | int (n : Int)
  | bool (b : Bool)
  | none
  | dict (fields : List (String × PyVal))
  | list (items : List PyVal)

/-- Python `payload.get(k)` / `payload[k]` on a string-keyed dict
(association list, first match). -/
def pyGet (payload : List (String × PyVal)) (k : String) : Option PyVal :=
  (payload.find? (fun kv => kv.1 == k)).map Prod.snd

/-- Python `k in payload` on a string-keyed dict. -/
def hasKey (payload : List (String × PyVal)) (k : String) : Bool :=
  payload.any (fun kv => kv.1 == k)

/-- The identity-injection step of `post_request`
(src/tools/send_request.py lines 57-63): add `email` and `secret` from the
process configuration when the keys are absent; a dict assignment of a new
key appends in insertion order. -/
def injectIdentity (email secret : String) (payload : List (String × PyVal)) :
    List (String × PyVal) :=
  let p1 := if hasKey payload "email" then payload else payload ++ [("email", PyVal.str email)]
  if hasKey p1 "secret" then p1 else p1 ++ [("secret", PyVal.str secret)]

/-- Character class of the URL regex in `run_agent`
(src/agent.py line 346): anything except whitespace and the characters
excluded by the pattern. -/
def urlChar (c : Char) : Bool :=
  !(c == ' ' || c == '\t' || c == '\n' || c == '\r' || c == '\x0b' || c == '\x0c'
    || c == '<' || c == '>' || c == '\x22' || c == '\x7b' || c == '\x7d' || c == '\\'
    || c == '|' || c == '^' || c == '\x60' || c == '[' || c == ']')

/-- Left-to-right non-overlapping matches of the Python regex
`https?://[^\s<>"{}\\|^`\[\]]+` over a character list; first argument is
fuel (the length of the text). -/
def findUrlsAux : Nat → List Char → List String
  | 0, _ => []
  | _, [] => []
  | fuel + 1, c :: rest =>
    if ("https://".data).isPrefixOf (c :: rest) then
      let body := ((c :: rest).drop 8).takeWhile urlChar
      if body.isEmpty then findUrlsAux fuel rest
      else String.mk ((c :: rest).take 8 ++ body)
        :: findUrlsAux fuel ((c :: rest).drop (8 + body.length))
    else if ("http://".data).isPrefixOf (c :: rest) then
      let body := ((c :: rest).drop 7).takeWhile urlChar
      if body.isEmpty then findUrlsAux fuel rest
      else String.mk ((c :: rest).take 7 ++ body)
        :: findUrlsAux fuel ((c :: rest).drop (7 + body.length))
    else findUrlsAux fuel rest

/-- Python `re.findall(r'https?://[^\s<>"{}\\|^`\[\]]+', content)`. -/
def pyFindUrls (s : String) : List String := findUrlsAux s.data.length s.data

/-- The regex fallback of `run_agent` (src/agent.py lines 342-352): scan
messages in reverse, take the first message containing a URL different
from the current one, and return that URL. -/
def regexScanBack (currentUrl : String) : List Msg → Option String
  | [] => Option.none
  | m :: rest =>
    match (pyFindUrls (contentOf m)).filter (fun u => u != currentUrl) with
    | u :: _ => some u
    | [] => regexScanBack currentUrl rest

/-- The next-URL extraction of `run_agent` (src/agent.py lines 318-352).
The JSON scan (lines 322-339) evaluates `json.loads(msg.content)` on the
first `ToolMessage` it meets, but `json` is never imported in
src/agent.py, so that evaluation raises `NameError` (which the outer
handler at line 363 turns into a chain-aborting error). When no tool
message exists the loop finds nothing and the regex fallback runs. -/
def extractNextUrl (msgs : List Msg) (currentUrl : String) :
    Except String (Option String) :=
  if msgs.any isToolMsg then
    Except.error "NameError: name 'json' is not defined"
  else
    Except.ok (regexScanBack currentUrl msgs.reverse)

/-- Outcome of the speech-recognition pipeline inside `transcribe_audio`,
supplied as an oracle: successful transcript, `sr.UnknownValueError`,
`sr.RequestError`, or any other exception (e.g. from pydub/ffmpeg). -/
inductive RecognizeOutcome where
  | ok (text : String)
  | unknownValue
  | requestError (e : String)
  | otherError (e : String)

/-- `transcribe_audio` (src/tools/audio.py lines 14-81). When the path
does not start with "LLMFiles" the body evaluates the undefined name
`file_path` (line 31), raising `NameError`, which the generic handler
turns into an error dict. When the file is missing the body returns a
plain string (line 36); on success it returns the bare transcript string
(line 56); the three handlers return dicts. `fileExists` is the oracle for
`os.path.exists(full_path)`. -/
def transcribeAudio (fileExists : Bool) (outcome : RecognizeOutcome)
    (audioPath : String) : PyVal :=
  if !pyStartsWith audioPath "LLMFiles" then
    PyVal.dict [("text", PyVal.str ""), ("success", PyVal.bool false),
      ("error", PyVal.str "name 'file_path' is not defined")]
  else if !fileExists then
    PyVal.str ("Error: File not found at " ++ audioPath)
  else
    match outcome with
    | RecognizeOutcome.ok t => PyVal.str t
    | RecognizeOutcome.unknownValue =>
      PyVal.dict [("text", PyVal.str ""), ("success", PyVal.bool false),
        ("error", PyVal.str "Could not understand audio")]
    | RecognizeOutcome.requestError e =>
      PyVal.dict [("text", PyVal.str ""), ("success", PyVal.bool false),
        ("error", PyVal.str ("Service error: " ++ e))]
    | RecognizeOutcome.otherError e =>
      PyVal.dict [("text", PyVal.str ""), ("success", PyVal.bool false),
        ("error", PyVal.str e)]

/-- Whether a tool result is a structured dict carrying a success flag. -/
def hasSuccessFlag : PyVal → Bool
  | PyVal.dict fields => fields.any (fun kv => kv.1 == "success")
  | _ => false

/-- A 240100-character message content, large enough to push the token
estimator over the 60000 ceiling. -/
def bigS : String := String.mk (List.replicate 240100 'x')

/-- A realistic over-budget conversation: system prompt, task message, a
model reply with a huge page dump request, its tool result, a second
reply, its tool result. -/
def exTrim : List Msg :=
  [Msg.system "sys",
   Msg.human "Solve this quiz: https://q1",
   Msg.ai bigS [⟨"call_1", "get_rendered_html", [("url", "https://q1")]⟩] false,
   Msg.tool "html result" "call_1",
   Msg.ai "downloading" [⟨"call_2", "download_file", [("url", "https://q1/data.csv")]⟩] false,
   Msg.tool "saved" "call_2"]

/-- A single over-budget message with no system prompt companion. -/
def exSingle : List Msg := [Msg.human bigS]

/-- Call times of nine submission attempts: four at 0..3, a fifth at 4
(which sleeps until 60), then four more as soon as the fifth returns. -/
def rlCalls : List Int := [0, 1, 2, 3, 4, 60, 60, 60, 60]

/-- Helper: a list of tool calls is all well-formed iff none is bad. -/
theorem all_good_eq_not_any_bad (calls : List ToolCall) :
    calls.all (fun tc => !(tc.name == "") && !tc.args.isEmpty) = !calls.any badToolCall := by
  induction calls with
  | nil => rfl
  | cons c cs ih => simp [List.all_cons, List.any_cons, badToolCall, ih, Bool.not_or]

/-- Claim C3, counterexample: a model reply whose backend-reported finish
status indicates a malformed structured call, but which carries no tool
calls and no completion keyword, is routed back to the reasoning node, not
to the repair node as the claim's rule 1 requires — `route` never inspects
the finish status. -/
theorem route_ignores_finish_status_cex :
    route (Msg.ai "could not parse function call" [] true) = Route.agent
    ∧ Route.agent ≠ Route.handleMalformed := by decide

/-- Claim C3, amended: the routing function is exactly the deterministic
transition table of spec section 4.3 with rule 1 (malformed finish status
to REPAIR) removed: well-formed tool calls go to ACT, a call with a
missing name or missing arguments goes to REPAIR, a tool-free reply whose
text contains a completion keyword goes to DONE, and everything else
(including any reply that is not a model reply) goes back to REASON. -/
theorem route_matches_table_without_finish_rule (m : Msg) :
    route m = routeSpecNoFinishCheck m := by
  cases m with
  | ai content calls f =>
    cases calls with
    | nil => simp [route, routeSpecNoFinishCheck]
    | cons hd tl =>
      have hall := all_good_eq_not_any_bad (hd :: tl)
      cases hb : (hd :: tl).any badToolCall with
      | true =>
        rw [hb] at hall
        simp only [route, routeSpecNoFinishCheck, List.isEmpty_cons, hb, hall]
        simp
      | false =>
        rw [hb] at hall
        simp only [route, routeSpecNoFinishCheck, List.isEmpty_cons, hb, hall]
        simp
  | system c => rfl
  | human c => rfl
  | tool c i => rfl

/-- Claim C10: a model reply with no tool invocations is routed to the
terminal state whenever its text contains "END", "COMPLETE" or "FINISHED"
as a case-insensitive substring, no matter where the substring occurs. -/
theorem route_done_on_keyword_substring (content : String) (f : Bool)
    (h : strContains (pyUpper content) "END" = true
       ∨ strContains (pyUpper content) "COMPLETE" = true
       ∨ strContains (pyUpper content) "FINISHED" = true) :
    route (Msg.ai content [] f) = Route.done := by
  have hsig : containsEndSignal content = true := by
    unfold containsEndSignal
    rcases h with h | h | h <;> simp [h]
  simp [route, hsig]

/-- Claim C10, witness: a tool-free reply mentioning only the unrelated
words "recommend", "endpoint" and "sending" terminates the control loop. -/
theorem route_done_on_keyword_substring_witness :
    route (Msg.ai "I recommend checking the endpoint before sending" [] false) = Route.done :=
  route_done_on_keyword_substring "I recommend checking the endpoint before sending" false
    (Or.inl (by decide))

/-- Claim C1, counterexample: with the current task timed out (elapsed
200 > 180), `agent_node` returns the fixed reply "TIMEOUT - submitting
fallback answer" and does not return the backend's reply for any
directive-extended conversation: against a backend that answers every
conversation with "BACKEND_REPLY", no appended directive makes the step's
output equal the backend's output. -/
theorem agent_timeout_skips_backend_cex :
    agentNode constBackend ⟨some "https://q1", [("https://q1", 0)]⟩ 200
        [Msg.system "s", Msg.human "u"] = [timeoutMessage]
    ∧ ¬ ∃ directive : Msg,
        agentNode constBackend ⟨some "https://q1", [("https://q1", 0)]⟩ 200
            [Msg.system "s", Msg.human "u"]
          = [constBackend ([Msg.system "s", Msg.human "u"] ++ [directive])] := by
  refine ⟨rfl, ?_⟩
  rintro ⟨d, h⟩
  simp only [constBackend] at h
  exact absurd h (by decide)

/-- Claim C1, amended: whenever the Shared Timing Store records a current
task whose elapsed time exceeds the 180-unit hard ceiling, `agent_node`
returns the fixed model reply "TIMEOUT - submitting fallback answer"
without invoking the language-model backend (the output is independent of
the backend oracle); there is no secondary 90-unit stall ceiling. -/
theorem agent_timeout_fixed_reply (invoke : List Msg → Msg) (ts : TimingStore)
    (now : Int) (msgs : List Msg) (u : String) (t0 : Int)
    (hcur : ts.currentUrl = some u) (hne : u ≠ "")
    (hstart : ts.startOf u = some t0) (helapsed : 180 < now - t0) :
    agentNode invoke ts now msgs = [timeoutMessage] := by
  simp [agentNode, hcur, hstart, hne, helapsed]

/-- Claim C1, witness for the amended theorem at a concrete timed-out
state. -/
theorem agent_timeout_fixed_reply_witness :
    agentNode constBackend ⟨some "https://q2", [("https://q2", 10)]⟩ 300 [] = [timeoutMessage] :=
  agent_timeout_fixed_reply constBackend ⟨some "https://q2", [("https://q2", 10)]⟩ 300 []
    "https://q2" 10 rfl (by decide) rfl (by decide)

/-- Claim C4: evaluation of the next-URL extraction at the failing input.
A final conversation containing a tool result whose payload parses to a
dict with a next-link raises NameError (json is never imported in
src/agent.py), so the chain aborts with an error instead of following the
link; only a conversation without tool results reaches the regex fallback
and can terminate cleanly. -/
theorem next_url_scan_raises_nameerror :
    extractNextUrl [Msg.system "s",
        Msg.ai "submitting" [⟨"c1", "post_request", [("url", "https://q1/submit")]⟩] false,
        Msg.tool "\x7b\x22correct\x22: true, \x22url\x22: \x22https://q2\x22\x7d" "c1"]
        "https://q1"
      = Except.error "NameError: name 'json' is not defined"
    ∧ extractNextUrl [Msg.system "s", Msg.ai "done, no further links" [] false] "https://q1"
      = Except.ok Option.none := ⟨rfl, rfl⟩

/-- Claim C9: evaluation of `transcribe_audio` at the failing input. On a
missing file the tool returns a bare string carrying no success flag,
contradicting its own docstring ("Returns: dict with keys: text,
success"); the recognizer-failure path shows the structured shape the tool
itself promises. -/
theorem transcribe_missing_file_unstructured :
    transcribeAudio false RecognizeOutcome.unknownValue "LLMFiles/ghost.mp3"
        = PyVal.str "Error: File not found at LLMFiles/ghost.mp3"
    ∧ hasSuccessFlag (transcribeAudio false RecognizeOutcome.unknownValue "LLMFiles/ghost.mp3")
        = false
    ∧ hasSuccessFlag (transcribeAudio true RecognizeOutcome.unknownValue "LLMFiles/clip.mp3")
        = true := ⟨rfl, rfl, rfl⟩

/-- Claim C5, counterexample: a sequentially realizable schedule of nine
submission attempts under which five submissions are dispatched inside the
sliding window [60, 120): the fifth attempt sleeps until 60 but is
recorded with its pre-sleep timestamp and the window is cleared, so the
next four attempts pass immediately. -/
theorem rate_limiter_window_bound_cex :
    seqValid [] 0 rlCalls = true
    ∧ runLimiter [] rlCalls = [0, 1, 2, 3, 60, 60, 60, 60, 64]
    ∧ windowCount (runLimiter [] rlCalls) 60 = 5 := by decide

/-- Claim C5, amended: an attempt arriving while the filtered window
already holds at least 4 recorded submissions is delayed exactly until the
oldest recorded submission ages out of the 60-unit window (it is
dispatched at oldest + 60); the global at-most-4-per-sliding-window bound,
however, does not hold for dispatch times. -/
theorem rate_limiter_delays_until_oldest_ages_out (times : List Int) (now t0 : Int)
    (rest : List Int) (hf : filterWindow times now = t0 :: rest)
    (hlen : 4 ≤ (t0 :: rest).length) :
    (checkRateLimit times now).2 = t0 + 60 := by
  have hmem : t0 ∈ List.filter (fun t => decide (now - t < 60)) times := by
    have h0 : t0 ∈ filterWindow times now := by
      rw [hf]; exact List.mem_cons_self _ _
    simpa [filterWindow] using h0
  have hp := List.of_mem_filter hmem
  have hlt : now - t0 < 60 := by simpa using hp
  simp only [checkRateLimit]
  rw [hf, if_pos hlen, List.headD_cons, if_pos (by omega : (0 : Int) < 60 - (now - t0))]
  show now + (60 - (now - t0)) = t0 + 60
  omega

/-- Claim C5, witness for the amended theorem: four submissions at times
0..3 and a fifth at time 4 delay the fifth until time 60. -/
theorem rate_limiter_delays_witness :
    (checkRateLimit [0, 1, 2, 3] 4).2 = 0 + 60 :=
  rate_limiter_delays_until_oldest_ages_out [0, 1, 2, 3] 4 0 [1, 2, 3] (by decide) (by decide)

/-- Helper: length of the oversized message content. -/
theorem bigS_length : bigS.length = 240100 := by
  have h : bigS.length = (List.replicate 240100 'x').length := rfl
  rw [h, List.length_replicate]

/-- Helper: the token estimator, as a rewrite rule. -/
theorem estimatedTokens_def (l : List Msg) :
    estimatedTokens l = (l.map (fun m => (contentOf m).length)).sum / 4 := rfl

/-- Helper: the example conversation is over the 60000-token ceiling. -/
theorem estimatedTokens_exTrim : estimatedTokens exTrim = 60039 := by
  have hsum : (exTrim.map (fun m => (contentOf m).length)).sum = 240157 := by
    simp only [exTrim, List.map_cons, List.map_nil, contentOf, bigS_length]
    simp only [List.sum_cons, List.sum_nil]
    decide
  rw [estimatedTokens_def, hsum]

/-- Helper: evaluation of the compaction on the over-budget example: the
retained suffix begins with the tool result of the dropped model reply. -/
theorem trimMessages_exTrim :
    trimMessages exTrim 60000
      = [Msg.system "sys", Msg.tool "html result" "call_1",
         Msg.ai "downloading" [⟨"call_2", "download_file", [("url", "https://q1/data.csv")]⟩] false,
         Msg.tool "saved" "call_2"] := by
  have hover : ¬ estimatedTokens exTrim ≤ 60000 := by
    rw [estimatedTokens_exTrim]; norm_num
  simp only [trimMessages]
  rw [if_neg (by simp [exTrim]), if_neg hover]
  simp [exTrim, isSystemMsg]

/-- Claim C2, counterexample: compacting the over-budget conversation
keeps the system instruction first but leaves the tool result "html
result" immediately after the system message, orphaned from the model
reply that requested it — the code never drops leading tool results from
the retained suffix. -/
theorem trim_orphan_tool_result_cex :
    causalInvariant exTrim = true ∧ causalInvariant (trimMessages exTrim 60000) = false := by
  refine ⟨by decide, ?_⟩
  rw [trimMessages_exTrim]
  decide

/-- Claim C2, amended: for every input whose unique system instruction is
the leading message, the compacted output still has the system
instruction at position 0; the second half of the claim (no orphaned tool
results after trimming) is false, as the counterexample shows. -/
theorem trim_preserves_leading_system (s : String) (rest : List Msg)
    (hns : ∀ m ∈ rest, isSystemMsg m = false) :
    (trimMessages (Msg.system s :: rest) 60000).head? = some (Msg.system s) := by
  simp only [trimMessages]
  rw [if_neg (by simp)]
  by_cases hle : estimatedTokens (Msg.system s :: rest) ≤ 60000
  · rw [if_pos hle]; rfl
  · rw [if_neg hle]
    have hrest : rest.filter (fun m => isSystemMsg m) = [] := by
      apply List.filter_eq_nil_iff.mpr
      intro m hm
      simp [hns m hm]
    have hsys : (Msg.system s :: rest).filter (fun m => isSystemMsg m) = [Msg.system s] := by
      simp only [List.filter_cons]
      rw [hrest, if_pos (show ((fun m => isSystemMsg m) (Msg.system s)) = true from rfl)]
    rw [hsys]
    simp

/-- Claim C2, witness for the amended theorem. -/
theorem trim_preserves_leading_system_witness :
    (trimMessages [Msg.system "a", Msg.human "b"] 60000).head? = some (Msg.system "a") :=
  trim_preserves_leading_system "a" [Msg.human "b"] (by decide)

/-- Claim C7, counterexample: a conversation consisting of one message of
240100 characters is over the 60000-token ceiling, yet `trim_messages`
returns it unchanged (keep_count is 0 and Python's `[-0:]` slice is the
whole list), so the output size is neither under the ceiling nor within
the defined suffix length 0. -/
theorem trim_size_bound_cex :
    60000 < estimatedTokens exSingle
    ∧ trimMessages exSingle 60000 = exSingle
    ∧ 60000 < estimatedTokens (trimMessages exSingle 60000)
    ∧ (trimMessages exSingle 60000).length = 1
    ∧ 3 * ((exSingle.filter (fun m => !isSystemMsg m)).length) / 5 = 0 := by
  have hest : estimatedTokens exSingle = 60025 := by
    have hsum : (exSingle.map (fun m => (contentOf m).length)).sum = 240100 := by
      simp only [exSingle, List.map_cons, List.map_nil, contentOf, bigS_length]
      simp only [List.sum_cons, List.sum_nil]
      decide
    rw [estimatedTokens_def, hsum]
  have heq : trimMessages exSingle 60000 = exSingle := by
    simp only [trimMessages]
    rw [if_neg (by simp [exSingle]), if_neg (by rw [hest]; norm_num)]
    simp [exSingle, isSystemMsg]
  refine ⟨by rw [hest]; norm_num, heq, by rw [heq, hest]; norm_num,
    by rw [heq]; rfl, by simp [exSingle, isSystemMsg]⟩

/-- Claim C7, amended: an input at or under the ceiling is returned
unchanged; an over-ceiling input with at least two non-system messages
retains exactly `3 * n / 5 < n` of its `n` non-system messages (a strict
message-count reduction), but neither the token-size bound nor the
suffix-length bound holds in general, as the counterexample shows. -/
theorem trim_idempotent_under_ceiling_and_shrinks (msgs : List Msg) :
    (estimatedTokens msgs ≤ 60000 → trimMessages msgs 60000 = msgs)
    ∧ (60000 < estimatedTokens msgs →
        2 ≤ (msgs.filter (fun m => !isSystemMsg m)).length →
        ((trimMessages msgs 60000).filter (fun m => !isSystemMsg m)).length
            = 3 * (msgs.filter (fun m => !isSystemMsg m)).length / 5
          ∧ 3 * (msgs.filter (fun m => !isSystemMsg m)).length / 5
              < (msgs.filter (fun m => !isSystemMsg m)).length) := by
  constructor
  · intro h
    simp only [trimMessages]
    by_cases he : msgs.isEmpty
    · rw [if_pos he]
    · rw [if_neg he, if_pos h]
  · intro hover hn
    have hne : ¬ msgs.isEmpty = true := by
      intro hemp
      have hnil : msgs = [] := List.isEmpty_iff.mp hemp
      rw [hnil] at hover
      simp [estimatedTokens] at hover
    have hkeep0 : ¬ (3 * (msgs.filter (fun m => !isSystemMsg m)).length / 5 = 0) := by omega
    have hfil1 : (msgs.filter (fun m => isSystemMsg m)).filter (fun m => !isSystemMsg m) = [] := by
      apply List.filter_eq_nil_iff.mpr
      intro a ha
      have := List.of_mem_filter ha
      simp [this]
    have hfil2 :
        ((msgs.filter (fun m => !isSystemMsg m)).drop
            ((msgs.filter (fun m => !isSystemMsg m)).length
              - 3 * (msgs.filter (fun m => !isSystemMsg m)).length / 5)).filter
            (fun m => !isSystemMsg m)
          = (msgs.filter (fun m => !isSystemMsg m)).drop
              ((msgs.filter (fun m => !isSystemMsg m)).length
                - 3 * (msgs.filter (fun m => !isSystemMsg m)).length / 5) := by
      apply List.filter_eq_self.mpr
      intro a ha
      have hmem : a ∈ msgs.filter (fun m => !isSystemMsg m) := by
        have hsub := List.drop_subset
          ((msgs.filter (fun m => !isSystemMsg m)).length
            - 3 * (msgs.filter (fun m => !isSystemMsg m)).length / 5)
          (msgs.filter (fun m => !isSystemMsg m))
        exact hsub ha
      have hx := List.of_mem_filter hmem
      exact hx
    constructor
    · simp only [trimMessages]
      rw [if_neg hne, if_neg (by omega), if_neg hkeep0]
      rw [List.filter_append, hfil1, hfil2]
      simp only [List.nil_append, List.length_drop]
      omega
    · omega

/-- Helper: dict lookup distributes over append, first list wins. -/
theorem pyGet_append (l m : List (String × PyVal)) (k : String) :
    pyGet (l ++ m) k = (pyGet l k).or (pyGet m k) := by
  unfold pyGet
  rw [List.find?_append]
  cases h : l.find? (fun kv => kv.1 == k) <;> simp [h, Option.or]

/-- Helper: lookup on a one-entry dict. -/
theorem pyGet_single (k k' : String) (v : PyVal) :
    pyGet [(k, v)] k' = if k == k' then some v else none := by
  cases h : k == k' <;> simp [pyGet, List.find?, h]

/-- Helper: key absence is exactly a failing lookup. -/
theorem hasKey_eq_false_iff (l : List (String × PyVal)) (k : String) :
    hasKey l k = false ↔ pyGet l k = none := by
  induction l with
  | nil => simp [hasKey, pyGet]
  | cons hd tl ih =>
    cases hhd : (hd.1 == k) with
    | true => simp [hasKey, pyGet, List.any_cons, List.find?_cons, hhd]
    | false => simp [hasKey, pyGet, List.any_cons, List.find?_cons, hhd, ih]

/-- Helper: key membership distributes over append. -/
theorem hasKey_append (l m : List (String × PyVal)) (k : String) :
    hasKey (l ++ m) k = (hasKey l k || hasKey m k) := by
  simp [hasKey, List.any_append]

/-- Claim C8: the identity-injection step of `post_request` sets an absent
`email`/`secret` field to exactly the configured value, leaves a present
one unchanged, and does not touch any other field. -/
theorem post_request_identity_injection (email secret : String)
    (payload : List (String × PyVal)) :
    (pyGet payload "email" = none →
      pyGet (injectIdentity email secret payload) "email" = some (PyVal.str email))
    ∧ (∀ v, pyGet payload "email" = some v →
      pyGet (injectIdentity email secret payload) "email" = some v)
    ∧ (pyGet payload "secret" = none →
      pyGet (injectIdentity email secret payload) "secret" = some (PyVal.str secret))
    ∧ (∀ v, pyGet payload "secret" = some v →
      pyGet (injectIdentity email secret payload) "secret" = some v)
    ∧ (∀ k, k ≠ "email" → k ≠ "secret" →
      pyGet (injectIdentity email secret payload) k = pyGet payload k) := by
  by_cases he : hasKey payload "email"
  · have hpe : pyGet payload "email" ≠ none := by
      intro hn
      rw [(hasKey_eq_false_iff payload "email").mpr hn] at he
      exact Bool.false_ne_true he
    by_cases hs : hasKey payload "secret"
    · have hinj : injectIdentity email secret payload = payload := by
        simp [injectIdentity, he, hs]
      have hps : pyGet payload "secret" ≠ none := by
        intro hn
        rw [(hasKey_eq_false_iff payload "secret").mpr hn] at hs
        exact Bool.false_ne_true hs
      exact ⟨fun h => absurd h hpe, fun v hv => by rw [hinj]; exact hv,
        fun h => absurd h hps, fun v hv => by rw [hinj]; exact hv,
        fun k _ _ => by rw [hinj]⟩
    · have hinj : injectIdentity email secret payload
          = payload ++ [("secret", PyVal.str secret)] := by
        simp [injectIdentity, he, hs]
      have hsn : pyGet payload "secret" = none :=
        (hasKey_eq_false_iff payload "secret").mp (Bool.of_not_eq_true hs)
      refine ⟨fun h => absurd h hpe, fun v hv => ?_, fun _ => ?_, fun v hv => absurd hv ?_,
        fun k hke hks => ?_⟩
      · rw [hinj, pyGet_append, hv]; rfl
      · rw [hinj, pyGet_append, hsn, pyGet_single]; rfl
      · rw [hsn]; exact fun h => Option.noConfusion h
      · rw [hinj, pyGet_append, pyGet_single]
        have : (("secret" : String) == k) = false := beq_eq_false_iff_ne.mpr (Ne.symm hks)
        rw [this]
        cases pyGet payload k <;> rfl
  · have hen : pyGet payload "email" = none :=
      (hasKey_eq_false_iff payload "email").mp (Bool.of_not_eq_true he)
    have hp1 : (if hasKey payload "email" then payload
        else payload ++ [("email", PyVal.str email)]) = payload ++ [("email", PyVal.str email)] := by
      simp [he]
    have hk1 : hasKey (payload ++ [("email", PyVal.str email)]) "secret"
        = hasKey payload "secret" := by
      rw [hasKey_append]
      simp [hasKey]
    by_cases hs : hasKey payload "secret"
    · have hinj : injectIdentity email secret payload
          = payload ++ [("email", PyVal.str email)] := by
        simp only [injectIdentity]
        rw [hp1, hk1, if_pos hs]
      have hps : pyGet payload "secret" ≠ none := by
        intro hn
        rw [(hasKey_eq_false_iff payload "secret").mpr hn] at hs
        exact Bool.false_ne_true hs
      refine ⟨fun _ => ?_, fun v hv => absurd hv ?_, fun h => absurd h hps,
        fun v hv => ?_, fun k hke hks => ?_⟩
      · rw [hinj, pyGet_append, hen, pyGet_single]; rfl
      · rw [hen]; exact fun h => Option.noConfusion h
      · rw [hinj, pyGet_append, hv]; rfl
      · rw [hinj, pyGet_append, pyGet_single]
        have : (("email" : String) == k) = false := beq_eq_false_iff_ne.mpr (Ne.symm hke)
        rw [this]
        cases pyGet payload k <;> rfl
    · have hsn : pyGet payload "secret" = none :=
        (hasKey_eq_false_iff payload "secret").mp (Bool.of_not_eq_true hs)
      have hinj : injectIdentity email secret payload
          = payload ++ [("email", PyVal.str email)] ++ [("secret", PyVal.str secret)] := by
        simp only [injectIdentity]
        rw [hp1, hk1, if_neg hs]
      refine ⟨fun _ => ?_, fun v hv => absurd hv ?_, fun _ => ?_,
        fun v hv => absurd hv ?_, fun k hke hks => ?_⟩
      · rw [hinj, pyGet_append, pyGet_append, hen, pyGet_single]
        rfl
      · rw [hen]; exact fun h => Option.noConfusion h
      · rw [hinj, pyGet_append, pyGet_append, hsn, pyGet_single, pyGet_single]
        rfl
      · rw [hsn]; exact fun h => Option.noConfusion h
      · rw [hinj, pyGet_append, pyGet_append, pyGet_single, pyGet_single]
        have h1 : (("email" : String) == k) = false := beq_eq_false_iff_ne.mpr (Ne.symm hke)
        have h2 : (("secret" : String) == k) = false := beq_eq_false_iff_ne.mpr (Ne.symm hks)
        rw [h1, h2]
        cases pyGet payload k <;> rfl

/-- Claim C8, witness: on a payload containing only an answer field, the
step injects the configured identity and leaves the answer unchanged. -/
theorem post_request_identity_injection_witness :
    pyGet (injectIdentity "user@example.com" "s3cret" [("answer", PyVal.str "42")]) "email"
        = some (PyVal.str "user@example.com")
    ∧ pyGet (injectIdentity "user@example.com" "s3cret" [("answer", PyVal.str "42")]) "answer"
        = some (PyVal.str "42") :=
  ⟨(post_request_identity_injection "user@example.com" "s3cret"
      [("answer", PyVal.str "42")]).1 rfl,
   ((post_request_identity_injection "user@example.com" "s3cret"
      [("answer", PyVal.str "42")]).2.2.2.2 "answer" (by decide) (by decide)).trans rfl⟩

/-- Helper: decoding a base64 character yields its 6-bit value. -/
theorem b64val_b64Char (n : Nat) (h : n < 64) : b64val (b64Char n) = n := by
  have hfin : ∀ m : Fin 64, b64val (b64Char m.val) = m.val := by decide
  exact hfin ⟨n, h⟩

/-- Helper: no base64 alphabet character is the padding character. -/
theorem b64Char_ne_pad (n : Nat) (h : n < 64) : b64Char n ≠ '=' := by
  have hfin : ∀ m : Fin 64, b64Char m.val ≠ '=' := by decide
  exact hfin ⟨n, h⟩

/-- Helper: base64 encoding of a byte list is byte-for-byte invertible. -/
theorem b64_roundtrip : ∀ bs : List Nat, (∀ b ∈ bs, b < 256) →
    b64decodeAux (b64encodeBytes bs) = bs
  | [], _ => rfl
  | [a], h => by
    have ha : a < 256 := h a (by simp)
    simp only [b64encodeBytes, b64decodeAux, if_true]
    rw [b64val_b64Char _ (by omega), b64val_b64Char _ (by omega)]
    simp only [List.cons.injEq, and_true]
    omega
  | [a, b], h => by
    have ha : a < 256 := h a (by simp)
    have hb : b < 256 := h b (by simp)
    simp only [b64encodeBytes, b64decodeAux, if_true]
    rw [if_neg (b64Char_ne_pad _ (by omega)),
      b64val_b64Char _ (by omega), b64val_b64Char _ (by omega), b64val_b64Char _ (by omega)]
    simp only [List.cons.injEq, and_true]
    exact ⟨by omega, by omega⟩
  | a :: b :: c :: d :: rest, h => by
    have ha : a < 256 := h a (by simp)
    have hb : b < 256 := h b (by simp)
    have hc : c < 256 := h c (by simp)
    have ih := b64_roundtrip (d :: rest) (fun x hx => h x (by simp [hx]))
    simp only [b64encodeBytes, b64decodeAux]
    rw [if_neg (b64Char_ne_pad _ (by omega)), if_neg (b64Char_ne_pad _ (by omega)),
      b64val_b64Char _ (by omega), b64val_b64Char _ (by omega),
      b64val_b64Char _ (by omega), b64val_b64Char _ (by omega), ih]
    simp only [List.cons.injEq]
    refine ⟨by omega, by omega, by omega, ?_⟩
    simp
  | [a, b, c], h => by
    have ha : a < 256 := h a (by simp)
    have hb : b < 256 := h b (by simp)
    have hc : c < 256 := h c (by simp)
    simp only [b64encodeBytes, b64decodeAux]
    rw [if_neg (b64Char_ne_pad _ (by omega)), if_neg (b64Char_ne_pad _ (by omega)),
      b64val_b64Char _ (by omega), b64val_b64Char _ (by omega),
      b64val_b64Char _ (by omega), b64val_b64Char _ (by omega)]
    simp only [List.cons.injEq, and_true]
    exact ⟨by omega, by omega, by omega⟩

/-- Claim C6: encoding a byte sequence stores its exact base64 under a
fresh key and returns the placeholder token; submitting any payload whose
serialized form contains that token yields an outgoing body in which the
token is replaced by that exact base64 string, and the stored base64
decodes byte-for-byte back to the original bytes. -/
theorem placeholder_roundtrip_exact (bs : List Nat) (k s : String)
    (hbytes : ∀ b ∈ bs, b < 256)
    (hc : strContains s ("BASE64_KEY:" ++ k) = true) :
    ((encodeImageToBase64 [] bs k).2.success = true
       ∧ (encodeImageToBase64 [] bs k).2.placeholder = "BASE64_KEY:" ++ k)
    ∧ (encodeImageToBase64 [] bs k).1 = [(k, b64encode bs)]
    ∧ substitutePlaceholders ((encodeImageToBase64 [] bs k).1) s
        = pyReplace s ("BASE64_KEY:" ++ k) (b64encode bs)
    ∧ b64decodeAux (b64encode bs).data = bs := by
  refine ⟨⟨rfl, rfl⟩, rfl, ?_, b64_roundtrip bs hbytes⟩
  show substitutePlaceholders [(k, b64encode bs)] s = _
  simp only [substitutePlaceholders, List.foldl_cons, List.foldl_nil]
  rw [if_pos hc]

/-- Claim C6, witness: the bytes of "Hi!" round-trip through the
placeholder mechanism. -/
theorem placeholder_roundtrip_exact_witness :
    ((encodeImageToBase64 [] [72, 105, 33] "k1").2.success = true
       ∧ (encodeImageToBase64 [] [72, 105, 33] "k1").2.placeholder = "BASE64_KEY:" ++ "k1")
    ∧ (encodeImageToBase64 [] [72, 105, 33] "k1").1 = [("k1", b64encode [72, 105, 33])]
    ∧ substitutePlaceholders ((encodeImageToBase64 [] [72, 105, 33] "k1").1) "x BASE64_KEY:k1 y"
        = pyReplace "x BASE64_KEY:k1 y" ("BASE64_KEY:" ++ "k1") (b64encode [72, 105, 33])
    ∧ b64decodeAux (b64encode [72, 105, 33]).data = [72, 105, 33] :=
  placeholder_roundtrip_exact [72, 105, 33] "k1" "x BASE64_KEY:k1 y" (by decide) (by decide)

/-- Claim C7, witness for the amended theorem: a small under-ceiling
conversation is unchanged, and the over-ceiling example conversation
keeps exactly 3 of its 5 non-system messages. -/
theorem trim_idempotent_under_ceiling_and_shrinks_witness :
    trimMessages [Msg.system "a", Msg.human "b"] 60000 = [Msg.system "a", Msg.human "b"]
    ∧ (((trimMessages exTrim 60000).filter (fun m => !isSystemMsg m)).length
          = 3 * (exTrim.filter (fun m => !isSystemMsg m)).length / 5
        ∧ 3 * (exTrim.filter (fun m => !isSystemMsg m)).length / 5
            < (exTrim.filter (fun m => !isSystemMsg m)).length) :=
  ⟨(trim_idempotent_under_ceiling_and_shrinks [Msg.system "a", Msg.human "b"]).1 (by decide),
   (trim_idempotent_under_ceiling_and_shrinks exTrim).2
     (by rw [estimatedTokens_exTrim]; norm_num) (by decide)⟩

end Quiz
